import Mathlib

set_option maxHeartbeats 1000000

namespace Xrust

/-- Modelled from the spec: the module qname.rs is not under src/. A namespace
aware name with an optional namespace URI, an optional prefix string (field
pfx) and a local name. Per the spec, identity (equality and hashing, as used
for attribute map keys) is defined over the namespace URI and the local name
only; the prefix string is cosmetic. -/
structure QualifiedName where
  nsuri : Option String
  pfx : Option String
  localname : String
deriving DecidableEq, Repr

/-- Modelled from the spec: the module value.rs is not under src/. A typed
scalar payload attached to text, attribute, comment and processing
instruction nodes. The claims under verification only exercise the string
variant; the boolean variant is included for completeness and the floating
point numeric variant is not modelled (no claim touches it). -/
inductive Value where
  | vstring (s : String)
  | vboolean (b : Bool)
deriving DecidableEq, Repr

/-- Modelled from the spec: Value::to_string renders the payload as a string. -/
def Value.toString : Value → String
  | .vstring s => s
  | .vboolean b => if b then ("true") else ("false")

/-- Modelled from the spec: the module xdmerror.rs is not under src/. The
error kinds used by the tree core (the source uses Unknown and
NotImplemented; ParseError is listed in the spec taxonomy). -/
inductive ErrorKind where
  | Unknown
  | NotImplemented
  | ParseError
deriving DecidableEq, Repr

/-- Modelled from the spec: an error value carries a kind and a message. -/
structure Error where
  kind : ErrorKind
  message : String
deriving DecidableEq, Repr

/-- The outcome of an operation: Ok, a returned Err, or a Rust panic (an
unwrap or expect applied to a missing value). -/
inductive Res (α : Type) where
  | ok (a : α)
  | err (e : Error)
  | panic
deriving DecidableEq, Repr

/-- The node kinds (enum NodeType in forest.rs). -/
inductive NodeType where
  | Document
  | Element
  | Text
  | Attribute
  | Comment
  | ProcessingInstruction
  | Unknown
deriving DecidableEq, Repr

/-- A node handle: an arena index paired with the index of the owning tree in
the forest (struct Node in forest.rs, a pair of Index and TreeIndex). -/
structure Node where
  idx : Nat
  tree : Nat
deriving DecidableEq, Repr

/-- The record stored at each arena slot (struct NodeContent in forest.rs).
The attribute HashMap is modelled as an association list; see attrsInsert and
attrsGet for the HashMap operations used by the source. -/
structure NodeContent where
  t : NodeType
  name : Option QualifiedName := none
  v : Option Value := none
  parent : Option Node := none
  attributes : List (QualifiedName × Node) := []
  children : List Node := []
deriving DecidableEq, Repr

/-- NodeContent::new as reached through NodeBuilder::new: a record of the
given type with all other fields empty. -/
def NodeContent.new (ty : NodeType) : NodeContent :=
  { t := ty }

/-- Key equality for the attribute map: per the spec, the QualifiedName Eq
and Hash implementations compare the namespace URI and the local name only. -/
def qnKeyEq (a b : QualifiedName) : Bool :=
  a.nsuri == b.nsuri && a.localname == b.localname

/-- HashMap::get on the attribute map: the value of the first entry whose key
equals k. -/
def attrsGet (m : List (QualifiedName × Node)) (k : QualifiedName) : Option Node :=
  (m.find? (fun kv => qnKeyEq kv.1 k)).map (fun kv => kv.2)

/-- HashMap::insert on the attribute map: when the key is present its value
is replaced in place and the stored key is kept (HashMap semantics),
otherwise the pair is appended. -/
def attrsInsert (m : List (QualifiedName × Node)) (k : QualifiedName) (a : Node) :
    List (QualifiedName × Node) :=
  if m.any (fun kv => qnKeyEq kv.1 k) then
    m.map (fun kv => if qnKeyEq kv.1 k then (kv.1, a) else kv)
  else m ++ [(k, a)]

/-- The index of the first list element satisfying p: the iter, enumerate,
skip_while, nth(0) pattern used by Node::remove, Siblings::new and
Descendants::new. -/
def findFirstIdx {α : Type} (p : α → Bool) : List α → Option Nat
  | [] => none
  | a :: l => if p a then some 0 else (findFirstIdx p l).map (fun i => i + 1)

/-- A tree: its index in the forest, an arena of node records (modelled as an
association list from arena index to record), the next fresh arena index, and
the arena index of the document node (struct Tree in forest.rs). -/
structure Tree where
  i : Nat
  arena : List (Nat × NodeContent)
  nextIdx : Nat
  d : Nat
deriving DecidableEq, Repr

/-- Tree::new: a fresh tree holding only a document node at arena index 0. -/
def Tree.new (i : Nat) : Tree :=
  { i := i, arena := [(0, NodeContent.new NodeType.Document)], nextIdx := 1, d := 0 }

/-- Tree::get: arena lookup. -/
def Tree.get (t : Tree) (j : Nat) : Option NodeContent :=
  (t.arena.find? (fun kv => kv.1 == j)).map (fun kv => kv.2)

/-- An arena slot update through Tree::get_mut: apply g to the record stored
at index j. Arena indices are unique (they are issued by an incrementing
counter), so mapping over the list rewrites exactly one entry. -/
def Tree.modifyAt (t : Tree) (j : Nat) (g : NodeContent → NodeContent) : Tree :=
  { t with arena := t.arena.map (fun kv => if kv.1 == j then (kv.1, g kv.2) else kv) }

/-- Arena::insert as used by the Tree::new_* constructors: append a record at
the next fresh index and return the handle Node::new(index, self.i). -/
def Tree.insertNC (t : Tree) (nc : NodeContent) : Node × Tree :=
  (⟨t.nextIdx, t.i⟩,
   { t with arena := t.arena ++ [(t.nextIdx, nc)], nextIdx := t.nextIdx + 1 })

/-- Tree::get_doc_node. -/
def Tree.get_doc_node (t : Tree) : Node := ⟨t.d, t.i⟩

/-- Tree::new_element. -/
def Tree.new_element (t : Tree) (name : QualifiedName) : Res Node × Tree :=
  let (n, t1) := t.insertNC { NodeContent.new NodeType.Element with name := some name }
  (Res.ok n, t1)

/-- Tree::new_text. -/
def Tree.new_text (t : Tree) (c : Value) : Res Node × Tree :=
  let (n, t1) := t.insertNC { NodeContent.new NodeType.Text with v := some c }
  (Res.ok n, t1)

/-- Tree::new_attribute. -/
def Tree.new_attribute (t : Tree) (name : QualifiedName) (v : Value) : Res Node × Tree :=
  let (n, t1) := t.insertNC
    { NodeContent.new NodeType.Attribute with name := some name, v := some v }
  (Res.ok n, t1)

/-- Tree::new_comment. -/
def Tree.new_comment (t : Tree) (v : Value) : Res Node × Tree :=
  let (n, t1) := t.insertNC { NodeContent.new NodeType.Comment with v := some v }
  (Res.ok n, t1)

/-- Tree::new_processing_instruction. -/
def Tree.new_processing_instruction (t : Tree) (name : QualifiedName) (v : Value) :
    Res Node × Tree :=
  let (n, t1) := t.insertNC
    { NodeContent.new NodeType.ProcessingInstruction with name := some name, v := some v }
  (Res.ok n, t1)

/-- Tree::push_doc_node: set the parent of n to the document node, then push
n onto the children of the document node. The first get_mut is unwrapped in
the source (panic when n is not in the arena); a missing document node yields
an Err. -/
def Tree.push_doc_node (t : Tree) (n : Node) : Res Unit × Tree :=
  match t.get n.idx with
  | none => (Res.panic, t)
  | some _ =>
    let t1 := t.modifyAt n.idx (fun e => { e with parent := some ⟨t.d, t.i⟩ })
    match t1.get t1.d with
    | none => (Res.err ⟨ErrorKind.Unknown, "no document node"⟩, t1)
    | some _ =>
      (Res.ok (), t1.modifyAt t1.d (fun e => { e with children := e.children ++ [n] }))

/-- A forest: an ordered collection of trees (struct Forest in forest.rs). -/
structure Forest where
  a : List Tree
deriving DecidableEq, Repr

/-- Forest::new. -/
def Forest.new : Forest := ⟨[]⟩

/-- Forest::plant_tree: append a fresh tree and return its index. -/
def Forest.plant_tree (f : Forest) : Nat × Forest :=
  (f.a.length, ⟨f.a ++ [Tree.new f.a.length]⟩)

/-- Forest::get_ref. -/
def Forest.get_ref (f : Forest) (i : Nat) : Option Tree :=
  f.a.get? i

/-- Writing back a tree that the source mutated through Forest::get_ref_mut. -/
def Forest.setTree (f : Forest) (i : Nat) (t : Tree) : Forest :=
  ⟨f.a.set i t⟩

/-- Node::node_type. -/
def Node.node_type (n : Node) (f : Forest) : NodeType :=
  match f.get_ref n.tree with
  | none => NodeType.Unknown
  | some d =>
    match d.get n.idx with
    | none => NodeType.Unknown
    | some m => m.t

/-- Node::to_string; none models a panic. The element arm is a stub in the
source: it returns the empty string and a source comment marks the string
value of descendant text nodes as TODO. -/
def Node.to_string (n : Node) (f : Forest) : Option String :=
  match f.get_ref n.tree with
  | none => some ("")
  | some _ =>
    match n.node_type f with
    | NodeType.Element => some ("")
    | NodeType.Text | NodeType.Attribute | NodeType.Comment =>
      match f.get_ref n.tree with
      | none => none
      | some d =>
        match d.get n.idx with
        | none => none
        | some nc =>
          some (match nc.v with
                | none => ""
                | some v => v.toString)
    | _ => some ("")

/-- Node::append_child. The cross tree deep copy and the detach of the child
from its current location are TODO comments in the source and perform
nothing: the handle is attached as is. -/
def Node.append_child (self : Node) (f : Forest) (c : Node) : Res Unit × Forest :=
  if self.node_type f ≠ NodeType.Element then
    (Res.err ⟨ErrorKind.Unknown, "must be an element"⟩, f)
  else if c.node_type f = NodeType.Attribute then
    (Res.err ⟨ErrorKind.Unknown, "cannot append an attribute as a child"⟩, f)
  else
    match f.get_ref self.tree with
    | none => (Res.err ⟨ErrorKind.Unknown, "unable to find tree"⟩, f)
    | some d =>
      match d.get c.idx with
      | none => (Res.err ⟨ErrorKind.Unknown, "unable to find node"⟩, f)
      | some _ =>
        let d1 := d.modifyAt c.idx (fun e => { e with parent := some self })
        match d1.get self.idx with
        | none =>
          (Res.err ⟨ErrorKind.Unknown, "unable to find node"⟩, f.setTree self.tree d1)
        | some _ =>
          let d2 := d1.modifyAt self.idx (fun e => { e with children := e.children ++ [c] })
          (Res.ok (), f.setTree self.tree d2)

/-- Node::insert_before: the source returns a NotImplemented error
unconditionally. -/
def Node.insert_before (self : Node) (f : Forest) (ins : Node) : Res Unit × Forest :=
  (Res.err ⟨ErrorKind.NotImplemented, "not yet implemented"⟩, f)

/-- Node::remove: delete the node from the child list of its parent, then
clear its parent field. The parent lookup and the position search are
unwrapped in the source, so a parentless node, or a node absent from the
child list of its parent, panics (modelled by Res.panic). -/
def Node.remove (self : Node) (f : Forest) : Res Unit × Forest :=
  match f.get_ref self.tree with
  | none => (Res.err ⟨ErrorKind.Unknown, "unable to find tree"⟩, f)
  | some d =>
    match d.get self.idx with
    | none => (Res.panic, f)
    | some nc =>
      match nc.parent with
      | none => (Res.panic, f)
      | some p =>
        match d.get p.idx with
        | none => (Res.panic, f)
        | some pc =>
          match findFirstIdx (fun x => x.idx == self.idx) pc.children with
          | none => (Res.panic, f)
          | some i =>
            let d1 := d.modifyAt p.idx (fun e => { e with children := e.children.eraseIdx i })
            let d2 := d1.modifyAt self.idx (fun e => { e with parent := none })
            (Res.ok (), f.setTree self.tree d2)

/-- Node::add_attribute: set the parent of a to self, then insert a into the
attribute map of self keyed by the qualified name of a (replacing any
existing attribute with an equal qualified name). The record and name
lookups are unwrapped in the source. -/
def Node.add_attribute (self : Node) (f : Forest) (a : Node) : Res Unit × Forest :=
  if self.node_type f ≠ NodeType.Element then
    (Res.err ⟨ErrorKind.Unknown, "must be an element"⟩, f)
  else if a.node_type f ≠ NodeType.Attribute then
    (Res.err ⟨ErrorKind.Unknown, "argument must be an attribute"⟩, f)
  else
    match f.get_ref self.tree with
    | none => (Res.err ⟨ErrorKind.Unknown, "unable to find tree"⟩, f)
    | some d =>
      match d.get a.idx with
      | none => (Res.panic, f)
      | some _ =>
        let d1 := d.modifyAt a.idx (fun e => { e with parent := some self })
        match d1.get a.idx with
        | none => (Res.panic, f.setTree self.tree d1)
        | some ac =>
          match ac.name with
          | none => (Res.panic, f.setTree self.tree d1)
          | some qn =>
            match d1.get self.idx with
            | none => (Res.panic, f.setTree self.tree d1)
            | some _ =>
              let d2 := d1.modifyAt self.idx
                (fun e => { e with attributes := attrsInsert e.attributes qn a })
              (Res.ok (), f.setTree self.tree d2)

/-- Node::get_attribute: look the qualified name up in the attribute map. -/
def Node.get_attribute (self : Node) (f : Forest) (qn : QualifiedName) : Option Node :=
  match f.get_ref self.tree with
  | none => none
  | some d =>
    match d.get self.idx with
    | none => none
    | some nc => attrsGet nc.attributes qn

/-- The Children iterator state (struct Children in forest.rs). -/
structure Children where
  t : Nat
  parent : Nat
  cur : Nat
deriving DecidableEq, Repr

/-- Node::child_iter. -/
def Node.child_iter (self : Node) : Children :=
  ⟨self.tree, self.idx, 0⟩

/-- Children::next: step by position through the child list. -/
def Children.next (it : Children) (f : Forest) : Option Node × Children :=
  match f.get_ref it.t with
  | none => (none, it)
  | some d =>
    match d.get it.parent with
    | none => (none, it)
    | some n =>
      if h : it.cur < n.children.length then
        (some (n.children.get ⟨it.cur, h⟩), { it with cur := it.cur + 1 })
      else (none, it)

/-- The Ancestors iterator state (struct Ancestors in forest.rs). -/
structure Ancestors where
  t : Nat
  cur : Nat
deriving DecidableEq, Repr

/-- Node::ancestor_iter. -/
def Node.ancestor_iter (self : Node) : Ancestors := ⟨self.tree, self.idx⟩

/-- Ancestors::next: step to the parent, stopping at (and not yielding) the
document node. -/
def Ancestors.next (it : Ancestors) (f : Forest) : Option Node × Ancestors :=
  match f.get_ref it.t with
  | none => (none, it)
  | some d =>
    match d.get it.cur with
    | none => (none, it)
    | some c =>
      match c.parent with
      | none => (none, it)
      | some p =>
        if p.node_type f = NodeType.Document then (none, it)
        else (some p, { it with cur := p.idx })

/-- The Siblings iterator state (struct Siblings in forest.rs). -/
structure Siblings where
  t : Nat
  parent : Nat
  cur : Nat
  dir : Int
deriving DecidableEq, Repr

/-- Siblings::new: locate the start node in the child list of its parent.
Every lookup (tree, record, parent, position) is unwrapped in the source;
none models a panic. -/
def Siblings.new (n : Nat) (t : Nat) (dir : Int) (f : Forest) : Option Siblings :=
  match f.get_ref t with
  | none => none
  | some d =>
    match d.get n with
    | none => none
    | some nc =>
      match nc.parent with
      | none => none
      | some p =>
        match d.get p.idx with
        | none => none
        | some pnc =>
          match findFirstIdx (fun x => x.idx == n) pnc.children with
          | none => none
          | some cur => some ⟨t, p.idx, cur, dir⟩

/-- Node::next_iter. -/
def Node.next_iter (self : Node) (f : Forest) : Option Siblings :=
  Siblings.new self.idx self.tree 1 f

/-- Node::prev_iter. -/
def Node.prev_iter (self : Node) (f : Forest) : Option Siblings :=
  Siblings.new self.idx self.tree (-1) f

/-- Siblings::next: step by position in the parent child list. The indexed
read cannot be out of range for a state built by Siblings.new. -/
def Siblings.next (it : Siblings) (f : Forest) : Option Node × Siblings :=
  match f.get_ref it.t with
  | none => (none, it)
  | some d =>
    match d.get it.parent with
    | none => (none, it)
    | some n =>
      if it.dir > 0 ∧ it.cur + 1 < n.children.length then
        match n.children.get? (it.cur + 1) with
        | some c => (some c, { it with cur := it.cur + 1 })
        | none => (none, it)
      else if it.dir < 0 ∧ 0 < it.cur then
        match n.children.get? (it.cur - 1) with
        | some c => (some c, { it with cur := it.cur - 1 })
        | none => (none, it)
      else (none, it)

/-- The Descendants iterator state (struct Descendants in forest.rs). The
Rust Vec stack is modelled with its top (the Vec end) at the list head. -/
structure Descendants where
  t : Nat
  start : Nat
  cur : Nat
  stack : List (Nat × Nat)
deriving DecidableEq, Repr

/-- Descendants::new: locate the start node in the child list of its parent
and seed the stack with that frame. Every lookup is unwrapped in the source;
none models a panic. -/
def Descendants.new (cur : Nat) (t : Nat) (f : Forest) : Option Descendants :=
  match f.get_ref t with
  | none => none
  | some d =>
    match d.get cur with
    | none => none
    | some nc =>
      match nc.parent with
      | none => none
      | some p =>
        match d.get p.idx with
        | none => none
        | some pnc =>
          match findFirstIdx (fun x => x.idx == cur) pnc.children with
          | none => none
          | some q => some ⟨t, cur, cur, [(p.idx, q)]⟩

/-- Node::descend_iter. -/
def Node.descend_iter (self : Node) (f : Forest) : Option Descendants :=
  Descendants.new self.idx self.tree f

/-- The inner loop of Descendants::next: pop the current frame, then keep
popping until a frame with a further sibling is found, stopping exhausted
when the stack empties or when the frame of the start node is reached.
Returns the yielded node if any, the remaining stack, and the new cursor when
it moved; none models a panic. -/
def descendLoop (t : Nat) (start : Nat) (d : Tree) :
    List (Nat × Nat) → Option (Option Node × List (Nat × Nat) × Option Nat)
  | [] => some (none, [], none)
  | (j, s) :: rest =>
    match d.get j with
    | none => none
    | some qnc =>
      if h : s + 1 < qnc.children.length then
        let nd := qnc.children.get ⟨s + 1, h⟩
        some (some ⟨nd.idx, t⟩, (j, s + 1) :: rest, some nd.idx)
      else if j == start then some (none, (j, s) :: rest, none)
      else descendLoop t start d rest

/-- Descendants::next. The source destructures the mutable stack top into
copied locals in the sibling arm, so that arm leaves the stored frame
untouched, and its indexed read is always out of range when its guard holds;
the inner loop is descendLoop. none models a panic. -/
def Descendants.next (it : Descendants) (f : Forest) :
    Option (Option Node × Descendants) :=
  if it.stack.isEmpty then some (none, it)
  else
    match (Node.child_iter ⟨it.cur, it.t⟩).next f with
    | (some n, _) =>
      some (some n, { it with stack := (it.cur, 0) :: it.stack, cur := n.idx })
    | (none, _) =>
      match f.get_ref it.t with
      | none => none
      | some d =>
        match it.stack with
        | [] => none
        | (i, s) :: rest =>
          match d.get i with
          | none => none
          | some pnc =>
            if pnc.children.length < s then
              match pnc.children.get? (s + 1) with
              | none => none
              | some nd => some (some ⟨nd.idx, it.t⟩, { it with cur := nd.idx })
            else
              match descendLoop it.t it.start d rest with
              | none => none
              | some (r, st1, curOpt) =>
                some (r, { it with stack := st1, cur := curOpt.getD it.cur })

/-- Run a Descendants iterator a given number of steps, collecting each
yielded value in order; an empty tail is produced if the iterator panics. -/
def descRun (f : Forest) : Nat → Descendants → List (Option Node)
  | 0, _ => []
  | k + 1, it =>
    match it.next f with
    | none => []
    | some (r, it1) => r :: descRun f k it1

/-- The pattern f.get_ref_mut(ti).unwrap().op(...): apply a tree operation at
index ti, panicking when the tree is missing. -/
def forestTreeOp (f : Forest) (ti : Nat) (op : Tree → Res Node × Tree) :
    Res Node × Forest :=
  match f.get_ref ti with
  | none => (Res.panic, f)
  | some t =>
    let (r, t1) := op t
    (r, f.setTree ti t1)

/-- The pattern f.get_ref_mut(ti).unwrap().push_doc_node(n). -/
def forestPushDoc (f : Forest) (ti : Nat) (n : Node) : Res Unit × Forest :=
  match f.get_ref ti with
  | none => (Res.panic, f)
  | some t =>
    let (r, t1) := t.push_doc_node n
    (r, f.setTree ti t1)

/-- Modelled from the spec: the mutable prefix to URI mapping used during
ingestion (a HashMap from String to String); it is only extended, never
popped on scope exit. -/
abbrev NSMap := List (String × String)

/-- HashMap::get on the namespace map. -/
def nsGet (m : NSMap) (k : String) : Option String :=
  (m.find? (fun kv => kv.1 == k)).map (fun kv => kv.2)

/-- HashMap::insert on the namespace map: replace in place or append. -/
def nsInsert (m : NSMap) (k : String) (v : String) : NSMap :=
  if m.any (fun kv => kv.1 == k) then
    m.map (fun kv => if kv.1 == k then (kv.1, v) else kv)
  else m ++ [(k, v)]

/-- Modelled from the spec: the transient parse tree type XMLNode produced by
the external tokenizer (parsexml.rs is not under src/); the constructor
shapes are exactly those consumed by make_node in forest.rs. -/
inductive XMLNode where
  | element (m : QualifiedName) (a : List XMLNode) (c : List XMLNode)
  | attribute (qn : QualifiedName) (v : Value)
  | text (v : Value)
  | comment (v : Value)
  | pi (m : String) (v : Value)

/-- Modelled from the spec: the parsed document returned by the external
tokenizer; grow_tree reads its content field, the list of top level nodes. -/
structure XMLDocument where
  content : List XMLNode

/-- The first attribute pass of make_node: record every xmlns prefixed
attribute as a prefix to URI mapping (local name maps to the rendered
value). -/
def collectXmlns (a : List XMLNode) (ns : NSMap) : NSMap :=
  a.foldl (fun acc b =>
    match b with
    | XMLNode.attribute qn v =>
      match qn.pfx with
      | some p => if p == "xmlns" then nsInsert acc qn.localname v.toString else acc
      | none => acc
    | _ => acc) ns

/-- The second attribute pass of make_node: create an attribute node for each
non xmlns attribute and add it to the new element. A failure of
new_attribute is silently ignored in the source; a failure of add_attribute
is unwrapped by expect, a panic the source marks with a Do Not Panic TODO. -/
def addAttrsLoop (new : Node) (ti : Nat) (ns : NSMap) :
    List XMLNode → Forest → Res Unit × Forest
  | [], f => (Res.ok (), f)
  | b :: rest, f =>
    match b with
    | XMLNode.attribute qn v =>
      match qn.pfx with
      | some p =>
        if p == "xmlns" then addAttrsLoop new ti ns rest f
        else
          let ans := (nsGet ns p).getD ("")
          match forestTreeOp f ti (fun t =>
              t.new_attribute ⟨some ans, some p, qn.localname⟩ v) with
          | (Res.ok c, f1) =>
            match new.add_attribute f1 c with
            | (Res.ok _, f2) => addAttrsLoop new ti ns rest f2
            | (_, f2) => (Res.panic, f2)
          | (Res.err _, f1) => addAttrsLoop new ti ns rest f1
          | (Res.panic, f1) => (Res.panic, f1)
      | none =>
        match forestTreeOp f ti (fun t => t.new_attribute qn v) with
        | (Res.ok c, f1) =>
          match new.add_attribute f1 c with
          | (Res.ok _, f2) => addAttrsLoop new ti ns rest f2
          | (_, f2) => (Res.panic, f2)
        | (Res.err _, f1) => addAttrsLoop new ti ns rest f1
        | (Res.panic, f1) => (Res.panic, f1)
    | _ => addAttrsLoop new ti ns rest f

mutual

/-- make_node in forest.rs: build one tree node (with its subtree) from a
transient parse node, resolving the namespace prefix of the element name
through the threaded prefix to URI map; an unresolved prefix is a returned
error. -/
def makeNode : XMLNode → Forest → Nat → NSMap → Res Node × Forest × NSMap
  | XMLNode.element m a c, f, ti, ns =>
    let ns1 := collectXmlns a ns
    (match m.pfx with
     | some p =>
       (match nsGet ns1 p with
        | none =>
          (Res.err ⟨ErrorKind.Unknown, "namespace URI not found for prefix"⟩, f, ns1)
        | some q => makeElement ⟨some q, m.pfx, m.localname⟩ a c f ti ns1)
     | none => makeElement ⟨none, m.pfx, m.localname⟩ a c f ti ns1)
  | XMLNode.attribute _ _, f, _, ns =>
    (Res.err ⟨ErrorKind.NotImplemented, "not implemented"⟩, f, ns)
  | XMLNode.text v, f, ti, ns =>
    let (r, f1) := forestTreeOp f ti (fun t => t.new_text v)
    (r, f1, ns)
  | XMLNode.comment v, f, ti, ns =>
    let (r, f1) := forestTreeOp f ti (fun t => t.new_comment v)
    (r, f1, ns)
  | XMLNode.pi m v, f, ti, ns =>
    let (r, f1) := forestTreeOp f ti
      (fun t => t.new_processing_instruction ⟨none, none, m⟩ v)
    (r, f1, ns)

/-- The element arm of make_node after namespace resolution: create the
element, process its attributes, then build and append its content. -/
def makeElement (newqn : QualifiedName) (a : List XMLNode) (c : List XMLNode)
    (f : Forest) (ti : Nat) (ns1 : NSMap) : Res Node × Forest × NSMap :=
  match forestTreeOp f ti (fun t => t.new_element newqn) with
  | (Res.ok new, f1) =>
    (match addAttrsLoop new ti ns1 a f1 with
     | (Res.ok _, f2) =>
       (match makeChildren new c f2 ti ns1 with
        | (Res.ok _, f3, ns2) => (Res.ok new, f3, ns2)
        | (Res.err e, f3, ns2) => (Res.err e, f3, ns2)
        | (Res.panic, f3, ns2) => (Res.panic, f3, ns2))
     | (Res.err e, f2) => (Res.err e, f2, ns1)
     | (Res.panic, f2) => (Res.panic, f2, ns1))
  | (Res.err e, f1) => (Res.err e, f1, ns1)
  | (Res.panic, f1) => (Res.panic, f1, ns1)

/-- The content loop of the element arm of make_node: build each child with
make_node (threading the namespace map) and append it, propagating the first
failure. -/
def makeChildren (new : Node) :
    List XMLNode → Forest → Nat → NSMap → Res Unit × Forest × NSMap
  | [], f, _, ns => (Res.ok (), f, ns)
  | h :: rest, f, ti, ns =>
    match makeNode h f ti ns with
    | (Res.ok g, f1, ns1) =>
      (match new.append_child f1 g with
       | (Res.ok _, f2) => makeChildren new rest f2 ti ns1
       | (Res.err e, f2) => (Res.err e, f2, ns1)
       | (Res.panic, f2) => (Res.panic, f2, ns1))
    | (Res.err e, f1, ns1) => (Res.err e, f1, ns1)
    | (Res.panic, f1, ns1) => (Res.panic, f1, ns1)

end

/-- The construction loop of Forest::grow_tree: build each top level node and
push it onto the document node, propagating the first failure while keeping
the mutated forest. -/
def growTreeLoop (ti : Nat) : List XMLNode → Forest → NSMap → Res Unit × Forest × NSMap
  | [], f, ns => (Res.ok (), f, ns)
  | c :: rest, f, ns =>
    match makeNode c f ti ns with
    | (Res.ok e, f1, ns1) =>
      (match forestPushDoc f1 ti e with
       | (Res.ok _, f2) => growTreeLoop ti rest f2 ns1
       | (Res.err er, f2) => (Res.err er, f2, ns1)
       | (Res.panic, f2) => (Res.panic, f2, ns1))
    | (Res.err er, f1, ns1) => (Res.err er, f1, ns1)
    | (Res.panic, f1, ns1) => (Res.panic, f1, ns1)

/-- Forest::grow_tree. Modelled from the spec: the external tokenizer
parsexml::parse is not under src/, so grow_tree receives the parse result as
an argument. The source propagates a parse failure, rejects an empty content
list, and otherwise plants a tree first and only then drives make_node and
push_doc_node over the top level content. -/
def Forest.grow_tree (f : Forest) (pr : Except Error XMLDocument) : Res Nat × Forest :=
  match pr with
  | Except.error e => (Res.err e, f)
  | Except.ok d =>
    if d.content.length == 0 then
      (Res.err ⟨ErrorKind.Unknown, "unable to parse XML"⟩, f)
    else
      let (ti, f1) := f.plant_tree
      match growTreeLoop ti d.content f1 [] with
      | (Res.ok _, f2, _) => (Res.ok ti, f2)
      | (Res.err e, f2, _) => (Res.err e, f2)
      | (Res.panic, f2, _) => (Res.panic, f2)

/-- A default record used only when reading concrete evaluation results. -/
def dNC : NodeContent := NodeContent.new NodeType.Unknown

/-- Scenario plumbing: extract the node of a successful constructor call. -/
def getN (r : Res Node × Forest) : Node × Forest :=
  match r with
  | (Res.ok n, f) => (n, f)
  | (_, f) => (⟨0, 0⟩, f)

/-- Scenario plumbing: keep only the forest of a mutation result. -/
def getF (r : Res Unit × Forest) : Forest := r.2

/-- Scenario plumbing: create an element in tree ti and append it to p. -/
def addElemChild (f : Forest) (ti : Nat) (p : Node) (qn : QualifiedName) :
    Node × Forest :=
  let nf := getN (forestTreeOp f ti (fun t => t.new_element qn))
  (nf.1, getF (p.append_child nf.2 nf.1))

/-- Scenario plumbing: create a text node in tree ti and append it to p. -/
def addTextChild (f : Forest) (ti : Nat) (p : Node) (s : String) : Node × Forest :=
  let nf := getN (forestTreeOp f ti (fun t => t.new_text (Value.vstring s)))
  (nf.1, getF (p.append_child nf.2 nf.1))

/-- Scenario plumbing: create an element in tree ti and push it onto the
document node. -/
def addDocElem (f : Forest) (ti : Nat) (qn : QualifiedName) : Node × Forest :=
  let nf := getN (forestTreeOp f ti (fun t => t.new_element qn))
  (nf.1, getF (forestPushDoc nf.2 ti nf.1))

def qTest : QualifiedName := ⟨none, none, "Test"⟩

def qL : QualifiedName := ⟨none, none, "L"⟩

def qAnother : QualifiedName := ⟨none, none, "Another"⟩

def qA : QualifiedName := ⟨none, none, "A"⟩

def qB : QualifiedName := ⟨none, none, "B"⟩

def qData : QualifiedName := ⟨none, none, "data"⟩

/-- The concrete document of claim C4, built exactly as the repository tests
build it: Test containing L (text one) and L (text two). Arena indices in
tree 0: document 0, Test 1, first L 2, text one 3, second L 4, text two 5. -/
def fB : Forest :=
  let f0 := (Forest.new.plant_tree).2
  let s1 := addDocElem f0 0 qTest
  let s2 := addElemChild s1.2 0 s1.1 qL
  let s3 := addTextChild s2.2 0 s2.1 ("one")
  let s4 := addElemChild s3.2 0 s1.1 qL
  let s5 := addTextChild s4.2 0 s4.1 ("two")
  s5.2

/-- The same document with a second top level element Another pushed after
Test (as in the repository descendants test). Arena indices in tree 0:
document 0, Test 1, Another 2, first L 3, text one 4, second L 5, text
two 6. -/
def fA : Forest :=
  let f0 := (Forest.new.plant_tree).2
  let s1 := addDocElem f0 0 qTest
  let s1b := addDocElem s1.2 0 qAnother
  let s2 := addElemChild s1b.2 0 s1.1 qL
  let s3 := addTextChild s2.2 0 s2.1 ("one")
  let s4 := addElemChild s3.2 0 s1.1 qL
  let s5 := addTextChild s4.2 0 s4.1 ("two")
  s5.2

/-- A document with two sibling elements A and B under Test and a text node
appended under A. Arena indices in tree 0: document 0, Test 1, A 2, B 3,
text 4. -/
def fD : Forest :=
  let f0 := (Forest.new.plant_tree).2
  let s1 := addDocElem f0 0 qTest
  let s2 := addElemChild s1.2 0 s1.1 qA
  let s3 := addElemChild s2.2 0 s1.1 qB
  let s4 := addTextChild s3.2 0 s2.1 ("c")
  s4.2

/-- Two trees in one forest: tree 0 holds element Test at handle (1, 0) and
tree 1 holds element Another at handle (1, 1), each pushed onto its own
document node. -/
def fE : Forest :=
  let f0 := (Forest.new.plant_tree).2
  let s1 := addDocElem f0 0 qTest
  let f2 := (s1.2.plant_tree).2
  let s2 := addDocElem f2 1 qAnother
  s2.2

/-- The forest fB extended with one detached element (arena index 6, never
attached to any parent). -/
def fC2 : Forest :=
  (forestTreeOp fB 0 (fun t => t.new_element qB)).2

/-- An element Test at (1, 0) carrying one attribute named data (the node at
(2, 0), value v1), together with a freshly created, not yet added attribute
node at (3, 0) also named data with value v2. -/
def fF : Forest :=
  let f0 := (Forest.new.plant_tree).2
  let s1 := addDocElem f0 0 qTest
  let a1 := getN (forestTreeOp s1.2 0 (fun t => t.new_attribute qData (Value.vstring ("v1"))))
  let f2 := getF ((s1.1).add_attribute a1.2 a1.1)
  let a2 := getN (forestTreeOp f2 0 (fun t => t.new_attribute qData (Value.vstring ("v2"))))
  a2.2

/-- A parse result whose single top level element carries an unresolved
namespace prefix, so tree construction fails after the tree is planted. -/
def nsDoc : XMLDocument := ⟨[XMLNode.element ⟨none, some ("a"), "Test"⟩ [] []]⟩

/-- The tree of the concrete forest fB. -/
def tB : Tree := (fB.get_ref 0).getD (Tree.new 0)

/-- The document node record of fB. -/
def ncB0 : NodeContent := (tB.get 0).getD dNC

/-- The record of the Test element of fB. -/
def ncB1 : NodeContent := (tB.get 1).getD dNC

/-- The record of the first L element of fB. -/
def ncB2 : NodeContent := (tB.get 2).getD dNC

/-- The tree of the concrete forest fC2. -/
def tC2 : Tree := (fC2.get_ref 0).getD (Tree.new 0)

/-- The tree of the concrete forest fF. -/
def tF : Tree := (fF.get_ref 0).getD (Tree.new 0)

/-- The record of the Test element of fF (it already carries one attribute
named data). -/
def ecF : NodeContent := (tF.get 1).getD dNC

/-- The record of the fresh attribute node of fF. -/
def acF : NodeContent := (tF.get 3).getD dNC

/-- Key equality on qualified names is reflexive. -/
theorem qnKeyEq_refl (k : QualifiedName) : qnKeyEq k k = true := by
  simp [qnKeyEq]

/-- Rewriting an arena slot through modifyAt does not change the key of any
entry, so a lookup at a different key is unchanged. -/
theorem find?_map_modify_ne {j j' : Nat} (hne : j' ≠ j) (g : NodeContent → NodeContent)
    (l : List (Nat × NodeContent)) :
    (l.map (fun kv => if kv.1 == j then (kv.1, g kv.2) else kv)).find?
        (fun kv => kv.1 == j') =
      l.find? (fun kv => kv.1 == j') := by
  rw [List.find?_map]
  have hpred : ((fun kv : Nat × NodeContent => kv.1 == j') ∘
      (fun kv => if kv.1 == j then (kv.1, g kv.2) else kv)) =
      (fun kv : Nat × NodeContent => kv.1 == j') := by
    funext kv
    by_cases h : (kv.1 == j) = true <;> simp [Function.comp, h]
  rw [hpred]
  cases hf : l.find? (fun kv : Nat × NodeContent => kv.1 == j') with
  | none => rfl
  | some kv =>
    have hp := List.find?_some hf
    have hkj : (kv.1 == j) = false := by
      have hkj' : kv.1 = j' := by simpa using hp
      exact beq_eq_false_iff_ne.mpr (by rw [hkj']; exact hne)
    simp only [Option.map_some']
    simp [hkj]

/-- Rewriting an arena slot through modifyAt applies g to the looked up
entry at that key. -/
theorem find?_map_modify_self {j : Nat} (g : NodeContent → NodeContent)
    (l : List (Nat × NodeContent)) :
    (l.map (fun kv => if kv.1 == j then (kv.1, g kv.2) else kv)).find?
        (fun kv => kv.1 == j) =
      (l.find? (fun kv => kv.1 == j)).map (fun kv => (kv.1, g kv.2)) := by
  rw [List.find?_map]
  have hpred : ((fun kv : Nat × NodeContent => kv.1 == j) ∘
      (fun kv => if kv.1 == j then (kv.1, g kv.2) else kv)) =
      (fun kv : Nat × NodeContent => kv.1 == j) := by
    funext kv
    by_cases h : (kv.1 == j) = true <;> simp [Function.comp, h]
  rw [hpred]
  cases hf : l.find? (fun kv : Nat × NodeContent => kv.1 == j) with
  | none => rfl
  | some kv =>
    have hp := List.find?_some hf
    simp [hp]
    exact fun h => absurd (by simpa using hp) h

/-- Tree.get after Tree.modifyAt at the same index. -/
theorem tree_get_modifyAt_self (t : Tree) (j : Nat) (g : NodeContent → NodeContent)
    (x : NodeContent) (h : t.get j = some x) :
    (t.modifyAt j g).get j = some (g x) := by
  simp only [Tree.get, Tree.modifyAt] at h ⊢
  rw [find?_map_modify_self]
  cases hf : t.arena.find? (fun kv => kv.1 == j) with
  | none => rw [hf] at h; simp at h
  | some kv =>
    rw [hf] at h
    simp only [Option.map_some', Option.some.injEq] at h ⊢
    rw [h]

/-- Tree.get after Tree.modifyAt at a different index. -/
theorem tree_get_modifyAt_ne (t : Tree) (j j' : Nat) (g : NodeContent → NodeContent)
    (h : j' ≠ j) : (t.modifyAt j g).get j' = t.get j' := by
  simp only [Tree.get, Tree.modifyAt]
  rw [find?_map_modify_ne h]

/-- List.get? after List.set at the same position. -/
theorem list_get?_set_self {α : Type} :
    ∀ (l : List α) (i : Nat) (a b : α), l.get? i = some b → (l.set i a).get? i = some a
  | [], i, a, b, h => by simp at h
  | _ :: l, 0, a, b, _ => rfl
  | x :: l, i + 1, a, b, h => by
    simpa using list_get?_set_self l i a b (by simpa using h)

/-- Forest.get_ref after Forest.setTree at the same index. -/
theorem forest_get_ref_setTree_self (f : Forest) (i : Nat) (t t' : Tree)
    (h : f.get_ref i = some t) : (f.setTree i t').get_ref i = some t' := by
  simp only [Forest.get_ref, Forest.setTree] at h ⊢
  exact list_get?_set_self f.a i t' t h

/-- A list with a positive match count has a first match position. -/
theorem findFirstIdx_of_countP_pos {α : Type} (p : α → Bool) :
    ∀ (l : List α), 0 < l.countP p → ∃ i, findFirstIdx p l = some i
  | [], h => by simp at h
  | a :: l, h => by
    by_cases hp : p a
    · exact ⟨0, by simp [findFirstIdx, hp]⟩
    · have h' : 0 < l.countP p := by
        rwa [List.countP_cons_of_neg p l (by simpa using hp)] at h
      obtain ⟨i, hi⟩ := findFirstIdx_of_countP_pos p l h'
      exact ⟨i + 1, by simp [findFirstIdx, hp, hi]⟩

/-- When exactly one element matches, erasing the first match position is
the same as filtering every match out (so the relative order of the other
elements is untouched). -/
theorem eraseIdx_findFirstIdx_of_countP_one {α : Type} (p : α → Bool) :
    ∀ (l : List α) (i : Nat), l.countP p = 1 → findFirstIdx p l = some i →
      l.eraseIdx i = l.filter (fun x => !(p x))
  | [], i, _, hf => by simp [findFirstIdx] at hf
  | a :: l, i, hc, hf => by
    by_cases hp : p a
    · have hi : i = 0 := by
        simp [findFirstIdx, hp] at hf
        omega
      subst hi
      have hl : l.countP p = 0 := by
        rw [List.countP_cons_of_pos p l hp] at hc
        omega
      have hfl : l.filter (fun x => !(p x)) = l := by
        rw [List.filter_eq_self]
        intro x hx
        simpa using (List.countP_eq_zero.mp hl) x hx
      simp [hp, hfl]
    · have hc' : l.countP p = 1 := by
        rwa [List.countP_cons_of_neg p l (by simpa using hp)] at hc
      simp only [findFirstIdx, hp] at hf
      cases hj : findFirstIdx p l with
      | none => rw [hj] at hf; simp at hf
      | some j =>
        rw [hj] at hf
        simp only [Option.map_some'] at hf
        have hij : i = j + 1 := (Option.some.inj hf).symm
        subst hij
        rw [List.eraseIdx_cons_succ, List.filter_cons_of_pos (by simpa using hp),
          eraseIdx_findFirstIdx_of_countP_one p l j hc' hj]

/-- A search that fails on the first list continues into the second. -/
theorem find?_none_append {α : Type} (p : α → Bool) :
    ∀ (l1 l2 : List α), l1.find? p = none → (l1 ++ l2).find? p = l2.find? p
  | [], _, _ => by simp
  | a :: l1, l2, h => by
    have hpa : p a = false := by
      have := List.find?_eq_none.mp h a (by simp)
      simpa using this
    have h1 : l1.find? p = none := by
      rw [List.find?_eq_none]
      intro x hx
      exact List.find?_eq_none.mp h x (by simp [hx])
    simpa [List.find?_cons, hpa] using find?_none_append p l1 l2 h1

/-- Replacing the value of every entry whose key equals k rewrites the
result of a lookup at k accordingly. -/
theorem find?_map_replace (k : QualifiedName) (a : Node)
    (m : List (QualifiedName × Node)) :
    (m.map (fun kv => if qnKeyEq kv.1 k then (kv.1, a) else kv)).find?
        (fun kv => qnKeyEq kv.1 k) =
      (m.find? (fun kv => qnKeyEq kv.1 k)).map (fun kv => (kv.1, a)) := by
  rw [List.find?_map]
  have hpred : ((fun kv : QualifiedName × Node => qnKeyEq kv.1 k) ∘
      (fun kv => if qnKeyEq kv.1 k then (kv.1, a) else kv)) =
      (fun kv : QualifiedName × Node => qnKeyEq kv.1 k) := by
    funext kv
    by_cases h : qnKeyEq kv.1 k = true <;> simp [Function.comp, h]
  rw [hpred]
  cases hf : m.find? (fun kv : QualifiedName × Node => qnKeyEq kv.1 k) with
  | none => rfl
  | some kv =>
    have hp := List.find?_some hf
    simp [hp]

/-- HashMap::get after HashMap::insert at the same key returns the inserted
value. -/
theorem attrsGet_attrsInsert_self (m : List (QualifiedName × Node))
    (k : QualifiedName) (a : Node) : attrsGet (attrsInsert m k a) k = some a := by
  unfold attrsGet attrsInsert
  by_cases hany : m.any (fun kv => qnKeyEq kv.1 k) = true
  · rw [if_pos hany, find?_map_replace]
    obtain ⟨x, hx, hpx⟩ := List.any_eq_true.mp hany
    cases hf : m.find? (fun kv => qnKeyEq kv.1 k) with
    | none => exact absurd (List.find?_eq_none.mp hf x hx) (by simp [hpx])
    | some kv => simp
  · rw [if_neg hany]
    have hn : m.find? (fun kv => qnKeyEq kv.1 k) = none := by
      rw [List.find?_eq_none]
      intro x hx hpx
      exact hany (List.any_eq_true.mpr ⟨x, hx, hpx⟩)
    rw [find?_none_append _ _ _ hn]
    simp [List.find?_cons, qnKeyEq_refl]

/-- Replacing the value of every entry whose key equals k does not change
the number of entries whose key equals k. -/
theorem countP_map_replace (k : QualifiedName) (a : Node) :
    ∀ (m : List (QualifiedName × Node)),
      (m.map (fun kv => if qnKeyEq kv.1 k then (kv.1, a) else kv)).countP
          (fun kv => qnKeyEq kv.1 k) =
        m.countP (fun kv => qnKeyEq kv.1 k)
  | [] => rfl
  | kv :: m => by
    by_cases hk : qnKeyEq kv.1 k = true
    · simp [List.countP_cons, hk, countP_map_replace k a m]
    · have hk' : qnKeyEq kv.1 k = false := by simpa using hk
      simp [List.countP_cons, hk', countP_map_replace k a m]

/-- HashMap::insert leaves exactly one entry for the inserted key, provided
the map held at most one before (the HashMap invariant). -/
theorem countP_attrsInsert (m : List (QualifiedName × Node)) (k : QualifiedName)
    (a : Node) (h : m.countP (fun kv => qnKeyEq kv.1 k) ≤ 1) :
    (attrsInsert m k a).countP (fun kv => qnKeyEq kv.1 k) = 1 := by
  unfold attrsInsert
  by_cases hany : m.any (fun kv => qnKeyEq kv.1 k) = true
  · rw [if_pos hany, countP_map_replace]
    have hpos : 0 < m.countP (fun kv => qnKeyEq kv.1 k) := by
      rw [List.countP_pos_iff]
      obtain ⟨x, hx, hpx⟩ := List.any_eq_true.mp hany
      exact ⟨x, hx, hpx⟩
    omega
  · rw [if_neg hany, List.countP_append]
    have h0 : m.countP (fun kv => qnKeyEq kv.1 k) = 0 := by
      rw [List.countP_eq_zero]
      intro x hx hpx
      exact hany (List.any_eq_true.mpr ⟨x, hx, hpx⟩)
    simp [h0, List.countP_cons, qnKeyEq_refl]

/-- C5: for every node n with a parent p, where n occurs exactly once in the
child list of p (the attachment invariant) and p is a different record,
remove succeeds; afterwards the record of n has parent none, the child list
of p is the old list with the entry of n filtered out (so n is absent and
the remaining children keep their relative order), and every other record of
the tree, in particular each descendant of n with its parent link, is
unchanged, leaving the detached subtree internally intact. -/
theorem remove_detaches (f : Forest) (n p : Node) (t : Tree) (nc pc : NodeContent)
    (ht : f.get_ref n.tree = some t)
    (hn : t.get n.idx = some nc)
    (hp : nc.parent = some p)
    (hpc : t.get p.idx = some pc)
    (hne : p.idx ≠ n.idx)
    (hcount : pc.children.countP (fun x => x.idx == n.idx) = 1) :
    ∃ t2, Node.remove n f = (Res.ok (), f.setTree n.tree t2) ∧
      (f.setTree n.tree t2).get_ref n.tree = some t2 ∧
      t2.get n.idx = some { nc with parent := none } ∧
      t2.get p.idx =
        some { pc with children := pc.children.filter (fun x => !(x.idx == n.idx)) } ∧
      (∀ x ∈ pc.children.filter (fun x => !(x.idx == n.idx)), x.idx ≠ n.idx) ∧
      (∀ j, j ≠ n.idx → j ≠ p.idx → t2.get j = t.get j) := by
  obtain ⟨i, hi⟩ :=
    findFirstIdx_of_countP_pos (fun x => x.idx == n.idx) pc.children (by omega)
  have hfilter := eraseIdx_findFirstIdx_of_countP_one
    (fun x => x.idx == n.idx) pc.children i hcount hi
  refine ⟨(t.modifyAt p.idx
      (fun e => { e with children := e.children.eraseIdx i })).modifyAt n.idx
      (fun e => { e with parent := none }), ?_, ?_, ?_, ?_, ?_, ?_⟩
  · simp only [Node.remove, ht, hn, hp, hpc, hi]
  · exact forest_get_ref_setTree_self f n.tree t _ ht
  · have h1 : (t.modifyAt p.idx
        (fun e => { e with children := e.children.eraseIdx i })).get n.idx = some nc := by
      rw [tree_get_modifyAt_ne t p.idx n.idx _ (Ne.symm hne)]
      exact hn
    exact tree_get_modifyAt_self _ n.idx _ nc h1
  · have h1 : (t.modifyAt p.idx
        (fun e => { e with children := e.children.eraseIdx i })).get p.idx =
        some { pc with children := pc.children.eraseIdx i } :=
      tree_get_modifyAt_self t p.idx _ pc hpc
    rw [tree_get_modifyAt_ne _ n.idx p.idx _ hne, h1, hfilter]
  · intro x hx
    have hbx := (List.mem_filter.mp hx).2
    simpa using hbx
  · intro j hjn hjp
    rw [tree_get_modifyAt_ne _ n.idx j _ hjn, tree_get_modifyAt_ne _ p.idx j _ hjp]

/-- C6: for an element e and an attribute node a (in the tree of e) whose
name is qn, add_attribute succeeds; afterwards get_attribute at qn returns
the handle a itself, the record of a keeps its value (only its parent is set
to e), and the attribute map of e holds exactly one entry whose key equals
qn, so a second attribute with the same qualified name replaces the first. -/
theorem add_attribute_then_get (f : Forest) (e a : Node) (t : Tree)
    (ac ec : NodeContent) (qn : QualifiedName)
    (ht : f.get_ref e.tree = some t)
    (he : e.node_type f = NodeType.Element)
    (ha : a.node_type f = NodeType.Attribute)
    (hac : t.get a.idx = some ac)
    (hname : ac.name = some qn)
    (hec : t.get e.idx = some ec)
    (hne : a.idx ≠ e.idx)
    (hcount : ec.attributes.countP (fun kv => qnKeyEq kv.1 qn) ≤ 1) :
    ∃ t2, Node.add_attribute e f a = (Res.ok (), f.setTree e.tree t2) ∧
      Node.get_attribute e (f.setTree e.tree t2) qn = some a ∧
      t2.get a.idx = some { ac with parent := some e } ∧
      t2.get e.idx = some { ec with attributes := attrsInsert ec.attributes qn a } ∧
      (attrsInsert ec.attributes qn a).countP (fun kv => qnKeyEq kv.1 qn) = 1 := by
  have h1 : (t.modifyAt a.idx (fun x => { x with parent := some e })).get a.idx =
      some { ac with parent := some e } :=
    tree_get_modifyAt_self t a.idx _ ac hac
  have h2 : (t.modifyAt a.idx (fun x => { x with parent := some e })).get e.idx =
      some ec := by
    rw [tree_get_modifyAt_ne t a.idx e.idx _ (Ne.symm hne)]
    exact hec
  refine ⟨(t.modifyAt a.idx (fun x => { x with parent := some e })).modifyAt e.idx
      (fun x => { x with attributes := attrsInsert x.attributes qn a }), ?_, ?_, ?_, ?_, ?_⟩
  · have hgne : ¬ (e.node_type f ≠ NodeType.Element) := by rw [he]; simp
    have hgna : ¬ (a.node_type f ≠ NodeType.Attribute) := by rw [ha]; simp
    simp only [Node.add_attribute, if_neg hgne, if_neg hgna, ht, hac, h1, hname, h2]
  · have hft : (f.setTree e.tree
        ((t.modifyAt a.idx (fun x => { x with parent := some e })).modifyAt e.idx
          (fun x => { x with attributes := attrsInsert x.attributes qn a }))).get_ref e.tree =
        some ((t.modifyAt a.idx (fun x => { x with parent := some e })).modifyAt e.idx
          (fun x => { x with attributes := attrsInsert x.attributes qn a })) :=
      forest_get_ref_setTree_self f e.tree t _ ht
    have h3 := tree_get_modifyAt_self
      (t.modifyAt a.idx (fun x => { x with parent := some e })) e.idx
      (fun x => { x with attributes := attrsInsert x.attributes qn a }) ec h2
    simp only [Node.get_attribute, hft, h3]
    exact attrsGet_attrsInsert_self ec.attributes qn a
  · rw [tree_get_modifyAt_ne _ e.idx a.idx _ hne]
    exact h1
  · exact tree_get_modifyAt_self _ e.idx _ ec h2
  · exact countP_attrsInsert ec.attributes qn a hcount

/-- C10: when the record of the start node has no parent, the constructors
of the descendant and sibling iterators (descend_iter, next_iter, prev_iter)
unwrap the missing parent and panic (modelled by none) instead of returning
an exhausted iterator; when the start node has a parent whose record lists
it among its children, construction succeeds and that failure branch is
unreachable. -/
theorem iterator_new_parent_unwrap (f : Forest) (n : Node) (t : Tree) (nc : NodeContent)
    (ht : f.get_ref n.tree = some t)
    (hn : t.get n.idx = some nc) :
    (nc.parent = none →
      Node.descend_iter n f = none ∧ Node.next_iter n f = none ∧
        Node.prev_iter n f = none) ∧
    (∀ p pc q, nc.parent = some p → t.get p.idx = some pc →
      findFirstIdx (fun x => x.idx == n.idx) pc.children = some q →
      (Node.descend_iter n f).isSome ∧ (Node.next_iter n f).isSome ∧
        (Node.prev_iter n f).isSome) := by
  constructor
  · intro hpar
    refine ⟨?_, ?_, ?_⟩ <;>
      simp only [Node.descend_iter, Node.next_iter, Node.prev_iter,
        Descendants.new, Siblings.new, ht, hn, hpar]
  · intro p pc q hpar hpc hq
    refine ⟨?_, ?_, ?_⟩ <;>
      simp only [Node.descend_iter, Node.next_iter, Node.prev_iter,
        Descendants.new, Siblings.new, ht, hn, hpar, hpc, hq, Option.isSome_some]

/-- C9: insert_before returns the NotImplemented error for every receiver,
forest and argument; it never inserts the new sibling. -/
theorem insert_before_always_not_implemented (self : Node) (f : Forest) (ins : Node) :
    Node.insert_before self f ins =
      (Res.err ⟨ErrorKind.NotImplemented, "not yet implemented"⟩, f) := rfl

/-- C2 failing evaluation: in fC2 the document node (index 0) and the
detached element (index 6) both have parent none; remove on either panics
(the source unwraps the missing parent) instead of returning an error result
to the caller. -/
theorem remove_parentless_panics :
    ((tC2.get 0).getD dNC).parent = none ∧
    (Node.remove ⟨0, 0⟩ fC2).1 = Res.panic ∧
    ((tC2.get 6).getD dNC).parent = none ∧
    (Node.remove ⟨6, 0⟩ fC2).1 = Res.panic := by
  exact ⟨by decide, by decide, by decide, by decide⟩

/-- C1 failing evaluation: in fD the text node 4 is a child of element A
(node 2); append_child of node 4 onto element B (node 3) succeeds, sets the
parent of node 4 to B and appends it to the children of B, but the child
list of the former parent A still contains node 4: the child is not
detached, it is silently duplicated across two child lists. -/
theorem append_child_leaves_old_parent :
    (Node.append_child ⟨3, 0⟩ fD ⟨4, 0⟩).1 = Res.ok () ∧
    ∃ t0, (Node.append_child ⟨3, 0⟩ fD ⟨4, 0⟩).2.get_ref 0 = some t0 ∧
      ((t0.get 4).getD dNC).parent = some ⟨3, 0⟩ ∧
      ((t0.get 3).getD dNC).children = [⟨4, 0⟩] ∧
      ((t0.get 2).getD dNC).children = [⟨4, 0⟩] := by
  refine ⟨by decide,
    ((Node.append_child ⟨3, 0⟩ fD ⟨4, 0⟩).2.get_ref 0).getD (Tree.new 0),
    by decide, by decide, by decide, by decide⟩

/-- C3 failing evaluation: appending the node (1, 1) of tree 1 onto the
element (1, 0) of tree 0 succeeds without any deep copy: both arenas keep
their two records, the foreign handle (1, 1) itself is aliased into the
child list of the target element, and the record at the colliding arena
index 1 of tree 0 (the target element itself) is re-parented onto the
target. -/
theorem append_child_cross_tree_aliases :
    (Node.append_child ⟨1, 0⟩ fE ⟨1, 1⟩).1 = Res.ok () ∧
    ∃ t0, (Node.append_child ⟨1, 0⟩ fE ⟨1, 1⟩).2.get_ref 0 = some t0 ∧
      ((t0.get 1).getD dNC).children = [⟨1, 1⟩] ∧
      ((t0.get 1).getD dNC).parent = some ⟨1, 0⟩ ∧
      t0.arena.length = 2 ∧
      ∃ t1, (Node.append_child ⟨1, 0⟩ fE ⟨1, 1⟩).2.get_ref 1 = some t1 ∧
        t1.arena.length = 2 := by
  refine ⟨by decide,
    ((Node.append_child ⟨1, 0⟩ fE ⟨1, 1⟩).2.get_ref 0).getD (Tree.new 0),
    by decide, by decide, by decide, by decide,
    ((Node.append_child ⟨1, 0⟩ fE ⟨1, 1⟩).2.get_ref 1).getD (Tree.new 1),
    by decide, by decide⟩

/-- C4: over fB, exactly the document of the claim, the descendant iterator
started at the Test element yields the first L element (node 2), its text
one (node 3), the second L element (node 4), its text two (node 5), and
then stays exhausted; the start node is never yielded. Over the variant fA,
where the start node has the following sibling Another, the traversal up to
its exhaustion yields only nodes of the subtree. -/
theorem descend_iter_concrete_yields :
    (∃ it, Node.descend_iter ⟨1, 0⟩ fB = some it ∧
      descRun fB 8 it =
        [some ⟨2, 0⟩, some ⟨3, 0⟩, some ⟨4, 0⟩, some ⟨5, 0⟩, none, none, none, none]) ∧
    ((tB.get 2).getD dNC).name = some qL ∧
    ((tB.get 2).getD dNC).t = NodeType.Element ∧
    ((tB.get 3).getD dNC).v = some (Value.vstring ("one")) ∧
    ((tB.get 3).getD dNC).t = NodeType.Text ∧
    ((tB.get 4).getD dNC).name = some qL ∧
    ((tB.get 4).getD dNC).t = NodeType.Element ∧
    ((tB.get 5).getD dNC).v = some (Value.vstring ("two")) ∧
    ((tB.get 5).getD dNC).t = NodeType.Text ∧
    (∃ it2, Node.descend_iter ⟨1, 0⟩ fA = some it2 ∧
      descRun fA 5 it2 =
        [some ⟨3, 0⟩, some ⟨4, 0⟩, some ⟨5, 0⟩, some ⟨6, 0⟩, none]) := by
  refine ⟨⟨(Node.descend_iter ⟨1, 0⟩ fB).getD ⟨0, 0, 0, []⟩, by decide, by decide⟩,
    by decide, by decide, by decide, by decide, by decide, by decide, by decide, by decide,
    ⟨(Node.descend_iter ⟨1, 0⟩ fA).getD ⟨0, 0, 0, []⟩, by decide, by decide⟩⟩

/-- C8 failing evaluation: in fB the Test element (node 1) has the
descendant texts one and two, so its XDM string value is onetwo, yet
to_string yields the empty string (the element arm is a stub); text nodes
and the document node behave as the claim says. -/
theorem to_string_element_empty :
    ((tB.get 1).getD dNC).t = NodeType.Element ∧
    Node.to_string ⟨1, 0⟩ fB = some ("") ∧
    Node.to_string ⟨3, 0⟩ fB = some ("one") ∧
    Node.to_string ⟨5, 0⟩ fB = some ("two") ∧
    Node.to_string ⟨0, 0⟩ fB = some ("") := by
  exact ⟨by decide, by decide, by decide, by decide, by decide⟩

/-- C7 failing evaluation: growing a tree from a parse result whose single
top level element has an unresolved namespace prefix returns an error and
no tree handle, but the forest still gains the freshly planted, partially
built tree: its tree count rises from zero to one. -/
theorem grow_tree_gains_tree_on_failure :
    (Forest.grow_tree Forest.new (Except.ok nsDoc)).1 =
      Res.err ⟨ErrorKind.Unknown, "namespace URI not found for prefix"⟩ ∧
    Forest.new.a.length = 0 ∧
    (Forest.grow_tree Forest.new (Except.ok nsDoc)).2.a.length = 1 := by
  have h : Forest.grow_tree Forest.new (Except.ok nsDoc) =
      (Res.err ⟨ErrorKind.Unknown, "namespace URI not found for prefix"⟩,
        (Forest.new.plant_tree).2) := by
    simp [Forest.grow_tree, nsDoc, growTreeLoop, makeNode, collectXmlns, nsGet]
  rw [h]
  exact ⟨rfl, rfl, rfl⟩

/-- C7 amended: on every tokenizer failure grow_tree returns the error with
the forest unchanged; on an input with zero top level nodes it returns an
error with the forest unchanged; but when construction fails after the tree
is planted (here: an unresolved namespace prefix) the error carries no tree
handle while the forest keeps the partially built tree, gaining one tree. -/
theorem grow_tree_failure_modes :
    (∀ (f : Forest) (e : Error), Forest.grow_tree f (Except.error e) = (Res.err e, f)) ∧
    (∀ (f : Forest) (d : XMLDocument), d.content = [] →
      Forest.grow_tree f (Except.ok d) =
        (Res.err ⟨ErrorKind.Unknown, "unable to parse XML"⟩, f)) ∧
    ((Forest.grow_tree Forest.new (Except.ok nsDoc)).1 =
        Res.err ⟨ErrorKind.Unknown, "namespace URI not found for prefix"⟩ ∧
      (Forest.grow_tree Forest.new (Except.ok nsDoc)).2.a.length =
        Forest.new.a.length + 1) := by
  have h : Forest.grow_tree Forest.new (Except.ok nsDoc) =
      (Res.err ⟨ErrorKind.Unknown, "namespace URI not found for prefix"⟩,
        (Forest.new.plant_tree).2) := by
    simp [Forest.grow_tree, nsDoc, growTreeLoop, makeNode, collectXmlns, nsGet]
  refine ⟨fun f e => rfl, fun f d hd => ?_, ?_, ?_⟩
  · simp [Forest.grow_tree, hd]
  · rw [h]
  · rw [h]
    rfl

/-- C7 amended witness: the empty content case at a concrete input. -/
theorem grow_tree_failure_modes_witness :
    Forest.grow_tree Forest.new (Except.ok ⟨[]⟩) =
      (Res.err ⟨ErrorKind.Unknown, "unable to parse XML"⟩, Forest.new) :=
  grow_tree_failure_modes.2.1 Forest.new ⟨[]⟩ rfl

/-- C5 witness: removing the first L element (node 2, parent node 1) of fB
through the general theorem at this concrete input. -/
theorem remove_detaches_witness :
    ∃ t2, Node.remove ⟨2, 0⟩ fB = (Res.ok (), fB.setTree 0 t2) ∧
      (fB.setTree 0 t2).get_ref 0 = some t2 ∧
      t2.get 2 = some { ncB2 with parent := none } ∧
      t2.get 1 = some { ncB1 with children := ncB1.children.filter (fun x => !(x.idx == 2)) } ∧
      (∀ x ∈ ncB1.children.filter (fun x => !(x.idx == 2)), x.idx ≠ 2) ∧
      (∀ j, j ≠ 2 → j ≠ 1 → t2.get j = tB.get j) :=
  remove_detaches fB ⟨2, 0⟩ ⟨1, 0⟩ tB ncB2 ncB1 (by decide) (by decide) (by decide)
    (by decide) (by decide) (by decide)

/-- C6 witness: adding the fresh attribute node 3 (named data, value v2) to
the Test element of fF, which already holds an attribute named data, through
the general theorem at this concrete input; the map afterwards holds exactly
one entry for that name. -/
theorem add_attribute_then_get_witness :
    ∃ t2, Node.add_attribute ⟨1, 0⟩ fF ⟨3, 0⟩ = (Res.ok (), fF.setTree 0 t2) ∧
      Node.get_attribute ⟨1, 0⟩ (fF.setTree 0 t2) qData = some ⟨3, 0⟩ ∧
      t2.get 3 = some { acF with parent := some ⟨1, 0⟩ } ∧
      t2.get 1 = some { ecF with attributes := attrsInsert ecF.attributes qData ⟨3, 0⟩ } ∧
      (attrsInsert ecF.attributes qData ⟨3, 0⟩).countP
        (fun kv => qnKeyEq kv.1 qData) = 1 :=
  add_attribute_then_get fF ⟨1, 0⟩ ⟨3, 0⟩ tF acF ecF qData (by decide) (by decide)
    (by decide) (by decide) (by decide) (by decide) (by decide) (by decide)

/-- C10 witness: in fB the document node (index 0) has no parent, so the
iterator constructors panic on it, while the first L element (index 2) has
parent node 1 and sits at position 0 of its child list, so construction
succeeds. -/
theorem iterator_new_parent_unwrap_witness :
    (Node.descend_iter ⟨0, 0⟩ fB = none ∧ Node.next_iter ⟨0, 0⟩ fB = none ∧
      Node.prev_iter ⟨0, 0⟩ fB = none) ∧
    ((Node.descend_iter ⟨2, 0⟩ fB).isSome ∧ (Node.next_iter ⟨2, 0⟩ fB).isSome ∧
      (Node.prev_iter ⟨2, 0⟩ fB).isSome) := by
  constructor
  · exact (iterator_new_parent_unwrap fB ⟨0, 0⟩ tB ncB0 (by decide) (by decide)).1
      (by decide)
  · exact (iterator_new_parent_unwrap fB ⟨2, 0⟩ tB ncB2 (by decide) (by decide)).2
      ⟨1, 0⟩ ncB1 0 (by decide) (by decide) (by decide)

end Xrust
